import Mathlib

/-!
Verification of the resilient client layer of the jam7 repository
(src/rag/production_rag_manager.py and src/rag/async_production_rag_manager.py),
shallowly embedded in Lean 4.

Timestamps, timeouts and backoff delays are modelled as rationals; the wrapped
operations (ChromaDB transport calls) are modelled as oracles giving the outcome
of each invocation, since the claims concern the control flow around them, not
the remote service itself.
-/

/-- Tri-state of a circuit breaker, `ConnectionState` in
production_rag_manager.py (the async file names the same enum `CircuitState`). -/
inductive ConnectionState where
  | CLOSED
  | OPEN
  | HALF_OPEN
deriving DecidableEq

/-- State of the synchronous `CircuitBreaker` class
(production_rag_manager.py, lines 82-135): configuration plus the mutable
fields guarded by its lock. `last_failure_time` starts as Python `None`. -/
structure CircuitBreaker where
  failure_threshold : Nat
  recovery_timeout : ℚ
  state : ConnectionState
  failure_count : Nat
  last_failure_time : Option ℚ
deriving DecidableEq

/-- CircuitBreaker._can_execute (lines 111-122): CLOSED admits; OPEN admits and
moves to HALF_OPEN once `recovery_timeout` has elapsed since the last failure,
otherwise rejects; HALF_OPEN admits.  Returns the admission decision together
with the (possibly updated) breaker.  The OPEN/no-timestamp case is unreachable
in the source (OPEN is only entered by `_on_failure`, which sets the
timestamp); it is mapped to a rejection. -/
def canExecute (cb : CircuitBreaker) (now : ℚ) : Bool × CircuitBreaker :=
  match cb.state with
  | .CLOSED => (true, cb)
  | .OPEN =>
    match cb.last_failure_time with
    | some t =>
      if cb.recovery_timeout ≤ now - t then
        (true, { cb with state := .HALF_OPEN })
      else
        (false, cb)
    | none => (false, cb)
  | .HALF_OPEN => (true, cb)

/-- CircuitBreaker._on_success (lines 124-127): reset the counter and close. -/
def onSuccess (cb : CircuitBreaker) : CircuitBreaker :=
  { cb with failure_count := 0, state := .CLOSED }

/-- CircuitBreaker._on_failure (lines 129-135): bump the counter, stamp the
failure time, and open once the counter reaches the threshold. -/
def onFailure (cb : CircuitBreaker) (now : ℚ) : CircuitBreaker :=
  let cb2 := { cb with
    failure_count := cb.failure_count + 1,
    last_failure_time := some now }
  if cb2.failure_threshold ≤ cb2.failure_count then
    { cb2 with state := .OPEN }
  else
    cb2

/-- Outcome of the wrapped operation, were it to be invoked. -/
inductive CallOutcome where
  | success
  | failure
deriving DecidableEq

/-- Result of `CircuitBreaker.call` as seen by its caller. -/
inductive CallResult where
  /-- rejected before the wrapped operation was invoked (CircuitOpen raised) -/
  | rejected
  /-- wrapped operation invoked and its result returned -/
  | ok
  /-- wrapped operation invoked, raised, and its exception re-raised -/
  | errored
deriving DecidableEq

/-- CircuitBreaker.call (lines 98-109): check admission; when rejected raise
without touching the wrapped function; otherwise invoke it and record the
outcome.  The call is modelled at a single instant `now`. -/
def cbCall (cb : CircuitBreaker) (now : ℚ) (out : CallOutcome) :
    CallResult × CircuitBreaker :=
  let p := canExecute cb now
  if p.1 then
    match out with
    | .success => (.ok, onSuccess p.2)
    | .failure => (.errored, onFailure p.2 now)
  else
    (.rejected, p.2)

/-- A sequence of calls whose wrapped operations all fail, recorded at the
given instants. -/
def failCalls (cb : CircuitBreaker) (ts : List ℚ) : CircuitBreaker :=
  ts.foldl (fun c t => (cbCall c t .failure).2) cb

/-- Breaker states reachable from a freshly constructed breaker through the
three lock-protected mutations of the source (`_can_execute`, `_on_success`,
`_on_failure`).  Admission and outcome recording are separate steps, as in the
source, so a breaker can be observed in HALF_OPEN between them. -/
inductive Reach : CircuitBreaker → Prop where
  | init (N : Nat) (T : ℚ) : Reach ⟨N, T, .CLOSED, 0, none⟩
  | gate (cb : CircuitBreaker) (now : ℚ) : Reach cb → Reach (canExecute cb now).2
  | success (cb : CircuitBreaker) : Reach cb → Reach (onSuccess cb)
  | failure (cb : CircuitBreaker) (now : ℚ) : Reach cb → Reach (onFailure cb now)

lemma canExecute_fields (cb : CircuitBreaker) (now : ℚ) :
    (canExecute cb now).2.failure_count = cb.failure_count ∧
    (canExecute cb now).2.failure_threshold = cb.failure_threshold ∧
    (canExecute cb now).2.recovery_timeout = cb.recovery_timeout ∧
    (canExecute cb now).2.last_failure_time = cb.last_failure_time := by
  rcases cb with ⟨N, T, st, c, lf⟩
  cases st <;> simp [canExecute]
  cases lf <;> simp
  split <;> simp

/-- Reachable non-CLOSED breakers carry a failure count at or above the
threshold: the counter is reset only on a transition into CLOSED. -/
lemma reach_invariant {cb : CircuitBreaker} (h : Reach cb) :
    cb.state ≠ .CLOSED → cb.failure_threshold ≤ cb.failure_count := by
  induction h with
  | init N T => intro hne; simp at hne
  | gate cb now _ ih =>
    intro hne
    obtain ⟨hc, ht, -, -⟩ := canExecute_fields cb now
    rw [hc, ht]
    rcases cb with ⟨N, T, st, c, lf⟩
    cases st with
    | CLOSED => simp [canExecute] at hne
    | OPEN => exact ih (by simp)
    | HALF_OPEN => exact ih (by simp)
  | success cb _ _ =>
    intro hne
    simp [onSuccess] at hne
  | failure cb now _ ih =>
    intro hne
    simp only [onFailure] at hne ⊢
    by_cases h1 : cb.failure_threshold ≤ cb.failure_count + 1
    · simp [h1]
    · exfalso
      simp only [if_neg h1] at hne
      exact h1 (Nat.le_succ_of_le (ih hne))

/-- Recording consecutive failures from a CLOSED breaker whose counter stays
strictly below the threshold keeps it CLOSED and accumulates the count; the
failure timestamp tracks the most recent failure. -/
lemma failCalls_closed (N : Nat) (T : ℚ) :
    ∀ (ts : List ℚ) (c : Nat) (lf : Option ℚ), c + ts.length < N →
      failCalls ⟨N, T, .CLOSED, c, lf⟩ ts
        = ⟨N, T, .CLOSED, c + ts.length, ts.foldl (fun _ t => some t) lf⟩ := by
  intro ts
  induction ts with
  | nil => intro c lf _; simp [failCalls]
  | cons t ts ih =>
    intro c lf hlt
    have hstep : (cbCall ⟨N, T, .CLOSED, c, lf⟩ t .failure).2
        = (⟨N, T, .CLOSED, c + 1, some t⟩ : CircuitBreaker) := by
      have hc1 : ¬ N ≤ c + 1 := by simp at hlt; omega
      simp [cbCall, canExecute, onFailure, hc1]
    have := ih (c + 1) (some t) (by simp at hlt ⊢; omega)
    simp only [failCalls, List.foldl_cons] at this ⊢
    rw [hstep, this]
    have hlen2 : c + 1 + ts.length = c + (ts.length + 1) := by omega
    simp [List.length_cons, hlen2]

/-- Claim C1: for every circuit breaker configured with failure threshold N
and recovery timeout T, after N consecutive recorded failures (at times
`ts ++ [tN]`), every call made while less than T has elapsed since the last
failure is rejected with the CircuitOpen error, whatever the wrapped
operation would have done (it is never invoked: the rejected branch of
`cbCall` does not consume the outcome). -/
theorem C1_open_rejects_within_timeout
    (N : Nat) (T : ℚ) (ts : List ℚ) (tN : ℚ) (now : ℚ)
    (hlen : ts.length + 1 = N) (hnow : now - tN < T) :
    (failCalls ⟨N, T, .CLOSED, 0, none⟩ (ts ++ [tN])).state = .OPEN ∧
    ∀ out : CallOutcome,
      cbCall (failCalls ⟨N, T, .CLOSED, 0, none⟩ (ts ++ [tN])) now out
        = (.rejected, failCalls ⟨N, T, .CLOSED, 0, none⟩ (ts ++ [tN])) := by
  have hfold : failCalls ⟨N, T, .CLOSED, 0, none⟩ (ts ++ [tN])
      = (⟨N, T, .OPEN, N, some tN⟩ : CircuitBreaker) := by
    have h1 : failCalls ⟨N, T, .CLOSED, 0, none⟩ ts
        = ⟨N, T, .CLOSED, ts.length, ts.foldl (fun _ t => some t) none⟩ := by
      simpa using failCalls_closed N T ts 0 none (by omega)
    have h2 : failCalls ⟨N, T, .CLOSED, 0, none⟩ (ts ++ [tN])
        = failCalls (failCalls ⟨N, T, .CLOSED, 0, none⟩ ts) [tN] := by
      simp [failCalls, List.foldl_append]
    rw [h2, h1]
    have hthr : N ≤ ts.length + 1 := by omega
    simp [failCalls, cbCall, canExecute, onFailure, hthr]
    omega
  rw [hfold]
  refine ⟨rfl, fun out => ?_⟩
  have hrej : ¬ T ≤ now - tN := not_le.mpr hnow
  simp [cbCall, canExecute, hrej]

/-- Witness for C1 at a concrete input: threshold 2, timeout 60, failures at
times 0 and 1, a call at time 30 with either outcome is rejected. -/
theorem C1_open_rejects_within_timeout_witness :
    (([(0 : ℚ)].length + 1 = 2 ∧ (30 : ℚ) - 1 < 60) ∧
      (failCalls ⟨2, 60, .CLOSED, 0, none⟩ ([0] ++ [1])).state = .OPEN ∧
      ∀ out : CallOutcome,
        cbCall (failCalls ⟨2, 60, .CLOSED, 0, none⟩ ([0] ++ [1])) 30 out
          = (.rejected, failCalls ⟨2, 60, .CLOSED, 0, none⟩ ([0] ++ [1]))) :=
  ⟨⟨by decide, by norm_num⟩,
    C1_open_rejects_within_timeout 2 60 [0] 1 30 (by decide) (by norm_num)⟩

/-- State of `AsyncCircuitBreaker` (async_production_rag_manager.py, lines
175-225).  Unlike the sync breaker, `last_failure_time` is initialised to 0,
not None.  The success/failure recorders are scheduled as fire-and-forget
tasks in the source; they are modelled as the state updates their bodies
perform. -/
structure ACircuitBreaker where
  threshold : Nat
  timeout : ℚ
  state : ConnectionState
  failure_count : Nat
  last_failure_time : ℚ
deriving DecidableEq

/-- AsyncCircuitBreaker._check_state (lines 193-201): when OPEN, move to
HALF_OPEN once strictly more than `timeout` has elapsed since the last
failure, otherwise reject (raise "Circuit breaker is OPEN"); any other state
passes through unchanged. -/
def aCheckState (acb : ACircuitBreaker) (now : ℚ) : Bool × ACircuitBreaker :=
  match acb.state with
  | .OPEN =>
    if acb.timeout < now - acb.last_failure_time then
      (true, { acb with state := .HALF_OPEN })
    else
      (false, acb)
  | _ => (true, acb)

/-- AsyncCircuitBreaker.record_success (lines 203-212): close only when
HALF_OPEN, and reset the counter unconditionally — also when the breaker is
OPEN. -/
def aRecordSuccess (acb : ACircuitBreaker) : ACircuitBreaker :=
  let acb2 :=
    if acb.state = .HALF_OPEN then { acb with state := .CLOSED } else acb
  { acb2 with failure_count := 0 }

/-- AsyncCircuitBreaker.record_failure (lines 214-225): bump the counter,
stamp the failure time, and open once the counter reaches the threshold. -/
def aRecordFailure (acb : ACircuitBreaker) (now : ℚ) : ACircuitBreaker :=
  let acb2 := { acb with
    failure_count := acb.failure_count + 1,
    last_failure_time := now }
  if acb2.threshold ≤ acb2.failure_count then
    { acb2 with state := .OPEN }
  else
    acb2

/-- A breaker state the async source reaches sequentially with threshold 2:
two failures open it, a success recorded while OPEN resets the counter to 0
without closing, and an admission check after the timeout moves it to
HALF_OPEN with counter 0. -/
def acbHalfZero : ACircuitBreaker :=
  (aCheckState
    (aRecordSuccess
      (aRecordFailure (aRecordFailure ⟨2, 60, .CLOSED, 0, 0⟩ 1) 2)) 100).2

lemma acbHalfZero_eval : acbHalfZero = ⟨2, 60, .HALF_OPEN, 0, 2⟩ := by
  have h1 : aRecordFailure ⟨2, 60, .CLOSED, 0, 0⟩ 1 = ⟨2, 60, .CLOSED, 1, 1⟩ := by
    simp [aRecordFailure]
  have h2 : aRecordFailure ⟨2, 60, .CLOSED, 1, 1⟩ 2 = ⟨2, 60, .OPEN, 2, 2⟩ := by
    simp [aRecordFailure]
  have h3 : aRecordSuccess ⟨2, 60, .OPEN, 2, 2⟩ = ⟨2, 60, .OPEN, 0, 2⟩ := by
    simp [aRecordSuccess]
  have h4 : aCheckState ⟨2, 60, .OPEN, 0, 2⟩ 100 = (true, ⟨2, 60, .HALF_OPEN, 0, 2⟩) := by
    have : (60 : ℚ) < 100 - 2 := by norm_num
    simp [aCheckState, this]
  rw [acbHalfZero, h1, h2, h3, h4]

/-- Claim C4 counterexample: the async breaker `acbHalfZero` is in HALF_OPEN
(reached through record_failure, record_failure, record_success and
_check_state from a fresh breaker with threshold 2), yet recording a failed
trial call leaves it in HALF_OPEN, not OPEN, because the success recorded
while OPEN had reset the failure counter to 0. -/
theorem C4_half_open_failure_counterexample :
    acbHalfZero.state = .HALF_OPEN ∧
    acbHalfZero.failure_count = 0 ∧
    (aRecordFailure acbHalfZero 101).state = .HALF_OPEN ∧
    (aRecordFailure acbHalfZero 101).state ≠ .OPEN := by
  rw [acbHalfZero_eval]
  refine ⟨rfl, rfl, ?_, ?_⟩ <;> simp [aRecordFailure]

/-- Claim C4 as amended: a call from HALF_OPEN that succeeds closes the
breaker and zeroes the counter in both implementations (for the sync breaker,
for every reachable HALF_OPEN state); a call from HALF_OPEN that fails leaves
the sync breaker OPEN, while the async breaker moves to OPEN exactly when the
incremented failure counter reaches the threshold — which can fail to hold,
since a success recorded while OPEN resets the async counter without closing
the breaker. -/
theorem C4_half_open_transitions :
    (∀ (cb : CircuitBreaker) (now : ℚ), Reach cb → cb.state = .HALF_OPEN →
      (cbCall cb now .success).1 = .ok ∧
      (cbCall cb now .success).2.state = .CLOSED ∧
      (cbCall cb now .success).2.failure_count = 0 ∧
      (cbCall cb now .failure).1 = .errored ∧
      (cbCall cb now .failure).2.state = .OPEN) ∧
    (∀ acb : ACircuitBreaker, acb.state = .HALF_OPEN →
      (aRecordSuccess acb).state = .CLOSED ∧
      (aRecordSuccess acb).failure_count = 0) ∧
    (∀ (acb : ACircuitBreaker) (now : ℚ), acb.state = .HALF_OPEN →
      ((aRecordFailure acb now).state = .OPEN ↔
        acb.threshold ≤ acb.failure_count + 1)) := by
  refine ⟨?_, ?_, ?_⟩
  · intro cb now hR hs
    have hinv : cb.failure_threshold ≤ cb.failure_count :=
      reach_invariant hR (by rw [hs]; intro h; cases h)
    rcases cb with ⟨N, T, st, c, lf⟩
    simp only at hs
    subst hs
    have hc1 : N ≤ c + 1 := by simp at hinv; omega
    simp [cbCall, canExecute, onSuccess, onFailure, hc1]
  · intro acb hs
    rcases acb with ⟨N, T, st, c, lf⟩
    simp only at hs
    subst hs
    simp [aRecordSuccess]
  · intro acb now hs
    rcases acb with ⟨N, T, st, c, lf⟩
    simp only at hs
    subst hs
    by_cases hth : N ≤ c + 1
    · simp [aRecordFailure, hth]
    · simp [aRecordFailure, hth]

lemma hcbHalf_eval :
    (canExecute (onFailure ⟨1, 1, .CLOSED, 0, none⟩ 0) 1).2
      = (⟨1, 1, .HALF_OPEN, 1, some 0⟩ : CircuitBreaker) := by
  have h1 : onFailure ⟨1, 1, .CLOSED, 0, none⟩ 0
      = (⟨1, 1, .OPEN, 1, some 0⟩ : CircuitBreaker) := by
    simp [onFailure]
  have h2 : canExecute ⟨1, 1, .OPEN, 1, some 0⟩ 1
      = (true, (⟨1, 1, .HALF_OPEN, 1, some 0⟩ : CircuitBreaker)) := by
    have : (1 : ℚ) ≤ 1 - 0 := by norm_num
    simp [canExecute, this]
  rw [h1, h2]

/-- Witness for C4 as amended, at concrete inputs: a reachable sync breaker
in HALF_OPEN (threshold 1: one failure at time 0 opens it, admission at time
1 makes it HALF_OPEN), and the concrete async breaker `acbHalfZero`. -/
theorem C4_half_open_transitions_witness :
    (Reach ((canExecute (onFailure ⟨1, 1, .CLOSED, 0, none⟩ 0) 1).2) ∧
      (canExecute (onFailure ⟨1, 1, .CLOSED, 0, none⟩ 0) 1).2.state
        = .HALF_OPEN ∧
      acbHalfZero.state = .HALF_OPEN) ∧
    ((cbCall ((canExecute (onFailure ⟨1, 1, .CLOSED, 0, none⟩ 0) 1).2) 5
        .success).2.state = .CLOSED ∧
      (cbCall ((canExecute (onFailure ⟨1, 1, .CLOSED, 0, none⟩ 0) 1).2) 5
        .failure).2.state = .OPEN) ∧
    (aRecordSuccess acbHalfZero).state = .CLOSED ∧
    ((aRecordFailure acbHalfZero 101).state = .OPEN ↔
      acbHalfZero.threshold ≤ acbHalfZero.failure_count + 1) := by
  have hreach : Reach ((canExecute (onFailure ⟨1, 1, .CLOSED, 0, none⟩ 0) 1).2) :=
    Reach.gate _ 1 (Reach.failure _ 0 (Reach.init 1 1))
  have hst : (canExecute (onFailure ⟨1, 1, .CLOSED, 0, none⟩ 0) 1).2.state
      = .HALF_OPEN := by rw [hcbHalf_eval]
  have hast : acbHalfZero.state = .HALF_OPEN := by rw [acbHalfZero_eval]
  have h1 := C4_half_open_transitions.1
    ((canExecute (onFailure ⟨1, 1, .CLOSED, 0, none⟩ 0) 1).2) 5 hreach hst
  have h2 := C4_half_open_transitions.2.1 acbHalfZero hast
  have h3 := C4_half_open_transitions.2.2 acbHalfZero 101 hast
  exact ⟨⟨hreach, hst, hast⟩, ⟨h1.2.1, h1.2.2.2.2⟩, h2.1, h3⟩

/-- Claim C7 counterexample: the sync breaker admits more than one call while
it remains HALF_OPEN.  From the reachable HALF_OPEN state
`(canExecute (onFailure init 0) 1).2` (threshold 1, timeout 1), a first
admission check returns true and leaves the state HALF_OPEN, and a second
admission check before any outcome is recorded also returns true. -/
theorem C7_second_call_admitted_counterexample :
    Reach ((canExecute (onFailure ⟨1, 1, .CLOSED, 0, none⟩ 0) 1).2) ∧
    ((canExecute (onFailure ⟨1, 1, .CLOSED, 0, none⟩ 0) 1).2.state
      = .HALF_OPEN ∧
    (canExecute ((canExecute (onFailure ⟨1, 1, .CLOSED, 0, none⟩ 0) 1).2) 2).1
      = true ∧
    (canExecute ((canExecute (onFailure ⟨1, 1, .CLOSED, 0, none⟩ 0) 1).2) 2).2.state
      = .HALF_OPEN ∧
    (canExecute
      ((canExecute ((canExecute (onFailure ⟨1, 1, .CLOSED, 0, none⟩ 0) 1).2) 2).2)
      2).1 = true) := by
  refine ⟨Reach.gate _ 1 (Reach.failure _ 0 (Reach.init 1 1)), ?_⟩
  rw [hcbHalf_eval]
  refine ⟨rfl, ?_, ?_, ?_⟩ <;> simp [canExecute]

/-- Claim C7 as amended: once a breaker is in HALF_OPEN, every admission
check admits the call and leaves the breaker unchanged (still HALF_OPEN), in
both implementations — the sync `_can_execute` (first conjunct) and the
async `_check_state` (second conjunct); the single-trial limit is not
enforced.  The breaker leaves HALF_OPEN only when an outcome is recorded. -/
theorem C7_half_open_admits_every_call :
    (∀ (cb : CircuitBreaker) (now : ℚ), cb.state = .HALF_OPEN →
      canExecute cb now = (true, cb)) ∧
    (∀ (acb : ACircuitBreaker) (now : ℚ), acb.state = .HALF_OPEN →
      aCheckState acb now = (true, acb)) := by
  constructor
  · intro cb now hs
    rcases cb with ⟨N, T, st, c, lf⟩
    simp only at hs
    subst hs
    simp [canExecute]
  · intro acb now hs
    rcases acb with ⟨N, T, st, c, lf⟩
    simp only at hs
    subst hs
    simp [aCheckState]

/-- Witness for C7 as amended, at a concrete reachable HALF_OPEN breaker of
each implementation: the sync breaker from the C7 counterexample trace and
the async breaker `acbHalfZero`. -/
theorem C7_half_open_admits_every_call_witness :
    ((canExecute (onFailure ⟨1, 1, .CLOSED, 0, none⟩ 0) 1).2.state
        = .HALF_OPEN ∧
      canExecute ((canExecute (onFailure ⟨1, 1, .CLOSED, 0, none⟩ 0) 1).2) 7
        = (true, (canExecute (onFailure ⟨1, 1, .CLOSED, 0, none⟩ 0) 1).2)) ∧
    (acbHalfZero.state = .HALF_OPEN ∧
      aCheckState acbHalfZero 101 = (true, acbHalfZero)) :=
  ⟨⟨by rw [hcbHalf_eval],
      C7_half_open_admits_every_call.1
        ((canExecute (onFailure ⟨1, 1, .CLOSED, 0, none⟩ 0) 1).2) 7
        (by rw [hcbHalf_eval])⟩,
    ⟨by rw [acbHalfZero_eval],
      C7_half_open_admits_every_call.2 acbHalfZero 101
        (by rw [acbHalfZero_eval])⟩⟩

/-- Errors surfaced by `_retry_with_backoff`
(production_rag_manager.py, lines 282-306). -/
inductive RError where
  /-- the CircuitOpen rejection raised by `CircuitBreaker.call` (line 101),
  carrying the breaker state interpolated into its message -/
  | circuitOpen (s : ConnectionState)
  /-- an exception raised by the wrapped function itself (transport error,
  pool exhaustion, ...), identified by its message -/
  | funcErr (e : String)
  /-- `raise last_exception` with `last_exception = None`, reachable only
  when `retry_attempts = 0` -/
  | noneRaised
deriving DecidableEq

/-- The loop body of ProductionRAGManager._retry_with_backoff (lines
286-305), structurally recursive in the number of remaining attempts.
`i` is the 0-based attempt index, `outs` gives the outcome the wrapped
function would produce on each attempt, and calls are instantaneous while
`time.sleep` advances the clock.  Every exception — including the breaker's
own CircuitOpen rejection — is caught by the bare `except Exception` and,
when attempts remain, is followed by a `retry_backoff_factor ** attempt`
sleep.  Returns (result, sleeps performed, final breaker state). -/
def retryFrom {α : Type} (b : ℚ) (outs : Nat → Except String α) :
    Nat → Nat → CircuitBreaker → ℚ →
    Except RError α × List ℚ × CircuitBreaker
  | 0, _, cb, _ => (.error .noneRaised, [], cb)
  | fuel + 1, i, cb, now =>
    let p := canExecute cb now
    if p.1 then
      match outs i with
      | .ok v => (.ok v, [], onSuccess p.2)
      | .error s =>
        let cb2 := onFailure p.2 now
        if fuel = 0 then
          (.error (.funcErr s), [], cb2)
        else
          let d := b ^ i
          let r := retryFrom b outs fuel (i + 1) cb2 (now + d)
          (r.1, d :: r.2.1, r.2.2)
    else
      if fuel = 0 then
        (.error (.circuitOpen p.2.state), [], p.2)
      else
        let d := b ^ i
        let r := retryFrom b outs fuel (i + 1) p.2 (now + d)
        (r.1, d :: r.2.1, r.2.2)

/-- ProductionRAGManager._retry_with_backoff (lines 282-306) with
`retry_attempts = R` and `retry_backoff_factor = b`, starting at attempt 0.
The sync manager has no retry_delay parameter: the sleep is exactly
`b ** attempt`. -/
def retryWithBackoff {α : Type} (R : Nat) (b : ℚ) (outs : Nat → Except String α)
    (cb : CircuitBreaker) (now : ℚ) :
    Except RError α × List ℚ × CircuitBreaker :=
  retryFrom b outs R 0 cb now

/-- One-step unfolding of `retryFrom`, used to control rewriting. -/
lemma retryFrom_succ {α : Type} (b : ℚ) (outs : Nat → Except String α)
    (f i : Nat) (cb : CircuitBreaker) (now : ℚ) :
    retryFrom b outs (f + 1) i cb now =
      if (canExecute cb now).1 then
        match outs i with
        | .ok v => (.ok v, [], onSuccess (canExecute cb now).2)
        | .error s =>
          if f = 0 then
            (.error (.funcErr s), [], onFailure (canExecute cb now).2 now)
          else
            ((retryFrom b outs f (i + 1) (onFailure (canExecute cb now).2 now)
                (now + b ^ i)).1,
              b ^ i :: (retryFrom b outs f (i + 1)
                (onFailure (canExecute cb now).2 now) (now + b ^ i)).2.1,
              (retryFrom b outs f (i + 1) (onFailure (canExecute cb now).2 now)
                (now + b ^ i)).2.2)
      else
        if f = 0 then
          (.error (.circuitOpen (canExecute cb now).2.state), [],
            (canExecute cb now).2)
        else
          ((retryFrom b outs f (i + 1) (canExecute cb now).2 (now + b ^ i)).1,
            b ^ i :: (retryFrom b outs f (i + 1) (canExecute cb now).2
              (now + b ^ i)).2.1,
            (retryFrom b outs f (i + 1) (canExecute cb now).2
              (now + b ^ i)).2.2) := rfl

lemma range_map_pow_succ (b : ℚ) (i f : Nat) :
    (List.range (f + 1)).map (fun k => b ^ (i + k))
      = b ^ i :: (List.range f).map (fun k => b ^ (i + 1 + k)) := by
  rw [List.range_succ_eq_map, List.map_cons, List.map_map]
  refine congrArg₂ _ (by simp) ?_
  apply List.map_congr_left
  intro k _
  simp only [Function.comp_apply]
  congr 1
  omega

lemma range_map_pow_sum_nonneg (b : ℚ) (hb : 0 ≤ b) (i f : Nat) :
    0 ≤ ((List.range f).map (fun k => b ^ (i + k))).sum := by
  apply List.sum_nonneg
  intro x hx
  simp only [List.mem_map] at hx
  obtain ⟨k, -, rfl⟩ := hx
  exact pow_nonneg hb _

/-- When the wrapped function fails on every attempt and the breaker stays
CLOSED throughout (counter plus remaining attempts at most the threshold),
the retry loop performs a backoff sleep of `b ^ attempt` after each attempt
but the last and surfaces the last failure unchanged. -/
lemma retryFrom_all_fail {α : Type} (b : ℚ) (es : Nat → String) (N : Nat) (T : ℚ) :
    ∀ (fuel i c : Nat) (lf : Option ℚ) (now : ℚ), 1 ≤ fuel → c + fuel ≤ N →
      (retryFrom (α := α) b (fun j => .error (es j)) fuel i
          ⟨N, T, .CLOSED, c, lf⟩ now).1
          = .error (.funcErr (es (i + fuel - 1))) ∧
      (retryFrom (α := α) b (fun j => .error (es j)) fuel i
          ⟨N, T, .CLOSED, c, lf⟩ now).2.1
          = (List.range (fuel - 1)).map (fun k => b ^ (i + k)) := by
  intro fuel
  induction fuel with
  | zero => intro i c lf now h1 _; omega
  | succ f ih =>
    intro i c lf now _ hcf
    match f, ih with
    | 0, _ =>
      simp [retryFrom, canExecute]
    | f + 1, ih =>
      have hce : canExecute (⟨N, T, .CLOSED, c, lf⟩ : CircuitBreaker) now
          = (true, ⟨N, T, .CLOSED, c, lf⟩) := by simp [canExecute]
      have hc1 : ¬ N ≤ c + 1 := by omega
      have hstep : onFailure ⟨N, T, .CLOSED, c, lf⟩ now
          = (⟨N, T, .CLOSED, c + 1, some now⟩ : CircuitBreaker) := by
        simp [onFailure, hc1]
      have hr := ih (i + 1) (c + 1) (some now) (now + b ^ i) (by omega) (by omega)
      have hidx : i + 1 + (f + 1) - 1 = i + (f + 1 + 1) - 1 := by omega
      rw [retryFrom_succ, hce]
      simp [hstep, hr.1, hr.2, hidx, range_map_pow_succ]

/-- While the breaker stays OPEN within its recovery window, every attempt of
the retry loop is rejected by the admission check, yet the loop still counts
the rejection as a failed attempt and sleeps the backoff delay before the
next attempt; the breaker state is never modified. -/
lemma retryFrom_all_rejected {α : Type} (b : ℚ) (hb : 0 ≤ b)
    (outs : Nat → Except String α) (N c : Nat) (T t : ℚ) :
    ∀ (fuel i : Nat) (now : ℚ), 1 ≤ fuel →
      now + ((List.range (fuel - 1)).map (fun k => b ^ (i + k))).sum - t < T →
      retryFrom b outs fuel i ⟨N, T, .OPEN, c, some t⟩ now
        = (.error (.circuitOpen .OPEN),
            (List.range (fuel - 1)).map (fun k => b ^ (i + k)),
            ⟨N, T, .OPEN, c, some t⟩) := by
  intro fuel
  induction fuel with
  | zero => intro i now h1 _; omega
  | succ f ih =>
    intro i now _ hwin
    match f, ih with
    | 0, _ =>
      have hlt : now - t < T := by simpa using hwin
      have hce : canExecute (⟨N, T, .OPEN, c, some t⟩ : CircuitBreaker) now
          = (false, ⟨N, T, .OPEN, c, some t⟩) := by
        simp [canExecute, not_le.mpr hlt]
      rw [retryFrom_succ, hce]
      simp
    | f + 1, ih =>
      rw [show f + 1 + 1 - 1 = f + 1 from rfl, range_map_pow_succ,
        List.sum_cons] at hwin
      have hS : 0 ≤ ((List.range f).map (fun k => b ^ (i + 1 + k))).sum :=
        range_map_pow_sum_nonneg b hb (i + 1) f
      have hbi : 0 ≤ b ^ i := pow_nonneg hb i
      have hlt : now - t < T := by linarith
      have hce : canExecute (⟨N, T, .OPEN, c, some t⟩ : CircuitBreaker) now
          = (false, ⟨N, T, .OPEN, c, some t⟩) := by
        simp [canExecute, not_le.mpr hlt]
      have hrec := ih (i + 1) (now + b ^ i) (by omega) (by
        rw [show f + 1 - 1 = f from rfl]
        linarith)
      rw [retryFrom_succ, hce]
      simp [hrec, range_map_pow_succ]

/-- Claim C2 counterexample: with a breaker OPEN since time 0 (threshold 5,
recovery timeout 60) and `retry_attempts = 3`, `retry_backoff_factor = 2`,
the sync executor `_retry_with_backoff` does not surface the CircuitOpen
rejection immediately: the rejection is caught like any other exception, all
3 attempts are consumed, backoff sleeps of 1s and 2s are incurred, and only
then is the CircuitOpen error raised — even though the wrapped operation
would have succeeded had it ever been invoked. -/
theorem C2_circuit_open_retried_counterexample :
    retryWithBackoff 3 2 (fun _ => (.ok 7 : Except String Nat))
        ⟨5, 60, .OPEN, 5, some 0⟩ 0
      = (.error (.circuitOpen .OPEN), [1, 2], ⟨5, 60, .OPEN, 5, some 0⟩) := by
  have h := retryFrom_all_rejected (α := Nat) 2 (by norm_num)
    (fun _ => .ok 7) 5 5 60 0 3 0 0 (by norm_num) (by
      simp [List.range_succ]
      norm_num)
  rw [retryWithBackoff, h]
  have : (List.range 2).map (fun k => (2 : ℚ) ^ (0 + k)) = [1, 2] := by
    simp [List.range_succ]
  rw [this]

/-- Claim C2 as amended: in the sync executor a CircuitOpen rejection is
caught by the retry loop like any other exception — it consumes a retry
attempt and, while attempts remain, incurs the backoff sleep, so a breaker
that stays OPEN through the whole window yields the CircuitOpen error only
after all attempts and all backoff sleeps (first conjunct); transport errors
and pool exhaustion raised by the wrapped function are likewise retried up to
the attempt budget, with the backoff sleeps performed and the last failure
surfaced (second conjunct). -/
theorem C2_circuit_open_consumes_attempts :
    (∀ (α : Type) (R : Nat) (b : ℚ) (outs : Nat → Except String α)
        (N c : Nat) (T t now : ℚ),
      1 ≤ R → 0 ≤ b →
      now + ((List.range (R - 1)).map (fun k => b ^ k)).sum - t < T →
      retryWithBackoff R b outs ⟨N, T, .OPEN, c, some t⟩ now
        = (.error (.circuitOpen .OPEN),
            (List.range (R - 1)).map (fun k => b ^ k),
            ⟨N, T, .OPEN, c, some t⟩)) ∧
    (∀ (α : Type) (R : Nat) (b : ℚ) (es : Nat → String)
        (N : Nat) (T now : ℚ) (lf : Option ℚ),
      1 ≤ R → R ≤ N →
      (retryWithBackoff (α := α) R b (fun j => .error (es j))
          ⟨N, T, .CLOSED, 0, lf⟩ now).1
        = .error (.funcErr (es (R - 1))) ∧
      (retryWithBackoff (α := α) R b (fun j => .error (es j))
          ⟨N, T, .CLOSED, 0, lf⟩ now).2.1
        = (List.range (R - 1)).map (fun k => b ^ k)) := by
  constructor
  · intro α R b outs N c T t now hR hb hwin
    have h := retryFrom_all_rejected (α := α) b hb outs N c T t R 0 now hR (by
      simpa using hwin)
    rw [retryWithBackoff, h]
    simp
  · intro α R b es N T now lf hR hRN
    have h := retryFrom_all_fail (α := α) b es N T R 0 0 lf now hR (by omega)
    rw [retryWithBackoff]
    refine ⟨by rw [h.1]; simp, by rw [h.2]; simp⟩

/-- Witness for C2 as amended at concrete inputs: both conjuncts at
`retry_attempts = 3`, `retry_backoff_factor = 2`, threshold 5. -/
theorem C2_circuit_open_consumes_attempts_witness :
    (retryWithBackoff 3 2 (fun _ => (.ok 7 : Except String Nat))
        ⟨5, 60, .OPEN, 5, some 0⟩ 0
      = (.error (.circuitOpen .OPEN), (List.range 2).map (fun k => (2 : ℚ) ^ k),
          ⟨5, 60, .OPEN, 5, some 0⟩)) ∧
    (retryWithBackoff (α := Nat) 3 2 (fun _ => .error "transport down")
        ⟨5, 60, .CLOSED, 0, none⟩ 0).1
      = .error (.funcErr "transport down") :=
  ⟨C2_circuit_open_consumes_attempts.1 Nat 3 2 (fun _ => .ok 7) 5 5 60 0 0
      (by norm_num) (by norm_num)
      (by simp [List.range_succ]; norm_num),
    (C2_circuit_open_consumes_attempts.2 Nat 3 2 (fun _ => "transport down")
      5 60 0 none (by norm_num) (by norm_num)).1⟩

/-- Errors surfaced by AsyncConnectionPool.request
(async_production_rag_manager.py, lines 134-161). -/
inductive AReqError where
  /-- the "Circuit breaker is OPEN" rejection raised by `_check_state` -/
  | circuitOpen
  /-- an HTTP / transport exception from the attempt itself, re-raised after
  the last attempt -/
  | transport (e : String)
deriving DecidableEq

/-- Wrap a transport-level error as a request error. -/
def toAReq {β : Type} : Except String β → Except AReqError β
  | .ok v => .ok v
  | .error e => .error (.transport e)

/-- The retry loop of AsyncConnectionPool.request (lines 139-161),
structurally recursive in the remaining attempts.  On success the data is
returned and a success is recorded; on failure a failure is recorded and, if
this was the last attempt, the exception is re-raised, otherwise the loop
sleeps `retry_delay * (2 ** attempt)` — the backoff base 2 is hard-coded in
the source.  When `retry_attempts = 0` the `for` body never runs and the
function falls through, returning Python None. -/
def asyncLoop {α : Type} (d : ℚ) (outs : Nat → Except String α) :
    Nat → Nat → ACircuitBreaker → ℚ →
    Except String (Option α) × List ℚ × ACircuitBreaker
  | 0, _, acb, _ => (.ok none, [], acb)
  | fuel + 1, i, acb, now =>
    match outs i with
    | .ok v => (.ok (some v), [], aRecordSuccess acb)
    | .error s =>
      let acb2 := aRecordFailure acb now
      if fuel = 0 then
        (.error s, [], acb2)
      else
        let d2 := d * 2 ^ i
        let r := asyncLoop d outs fuel (i + 1) acb2 (now + d2)
        (r.1, d2 :: r.2.1, r.2.2)

/-- AsyncConnectionPool.request (lines 134-161): the circuit breaker is
consulted once, via `async with self._circuit_breaker` before the retry
loop; if it rejects, CircuitOpen is raised before any attempt.  The
fire-and-forget recording tasks of the source are modelled as synchronous
state updates. -/
def asyncRequest {α : Type} (R : Nat) (d : ℚ) (outs : Nat → Except String α)
    (acb : ACircuitBreaker) (now : ℚ) :
    Except AReqError (Option α) × List ℚ × ACircuitBreaker :=
  let chk := aCheckState acb now
  if chk.1 then
    let r := asyncLoop d outs R 0 chk.2 now
    (toAReq r.1, r.2.1, r.2.2)
  else
    (.error .circuitOpen, [], chk.2)

/-- One-step unfolding of `asyncLoop`, used to control rewriting. -/
lemma asyncLoop_succ {α : Type} (d : ℚ) (outs : Nat → Except String α)
    (f i : Nat) (acb : ACircuitBreaker) (now : ℚ) :
    asyncLoop d outs (f + 1) i acb now =
      match outs i with
      | .ok v => (.ok (some v), [], aRecordSuccess acb)
      | .error s =>
        if f = 0 then
          (.error s, [], aRecordFailure acb now)
        else
          ((asyncLoop d outs f (i + 1) (aRecordFailure acb now)
              (now + d * 2 ^ i)).1,
            d * 2 ^ i :: (asyncLoop d outs f (i + 1) (aRecordFailure acb now)
              (now + d * 2 ^ i)).2.1,
            (asyncLoop d outs f (i + 1) (aRecordFailure acb now)
              (now + d * 2 ^ i)).2.2) := rfl

lemma range_map_dpow_succ (d : ℚ) (i f : Nat) :
    (List.range (f + 1)).map (fun k => d * 2 ^ (i + k))
      = d * 2 ^ i :: (List.range f).map (fun k => d * 2 ^ (i + 1 + k)) := by
  rw [List.range_succ_eq_map, List.map_cons, List.map_map]
  refine congrArg₂ _ (by simp) ?_
  apply List.map_congr_left
  intro k _
  simp only [Function.comp_apply]
  congr 2
  omega

/-- When every attempt of the async retry loop fails, the loop sleeps
`retry_delay * 2 ^ attempt` after each attempt but the last and re-raises
the last failure. -/
lemma asyncLoop_all_fail {α : Type} (d : ℚ) (es : Nat → String) :
    ∀ (fuel i : Nat) (acb : ACircuitBreaker) (now : ℚ), 1 ≤ fuel →
      (asyncLoop (α := α) d (fun j => .error (es j)) fuel i acb now).1
        = .error (es (i + fuel - 1)) ∧
      (asyncLoop (α := α) d (fun j => .error (es j)) fuel i acb now).2.1
        = (List.range (fuel - 1)).map (fun k => d * 2 ^ (i + k)) := by
  intro fuel
  induction fuel with
  | zero => intro i acb now h1; omega
  | succ f ih =>
    intro i acb now _
    match f, ih with
    | 0, _ => simp [asyncLoop_succ]
    | f + 1, ih =>
      have hr := ih (i + 1) (aRecordFailure acb now) (now + d * 2 ^ i)
        (by omega)
      have hidx : i + 1 + (f + 1) - 1 = i + (f + 1 + 1) - 1 := by omega
      rw [asyncLoop_succ]
      simp [hr.1, hr.2, hidx, range_map_dpow_succ]

lemma aCheckState_closed (acb : ACircuitBreaker) (now : ℚ)
    (hs : acb.state = .CLOSED) : aCheckState acb now = (true, acb) := by
  rcases acb with ⟨N, T, st, c, lf⟩
  simp only at hs
  subst hs
  simp [aCheckState]

/-- Claim C5: inter-attempt backoff delays.  The async executor configured
with `retry_delay = d` sleeps exactly `d * 2 ^ i` after failing attempt `i`
(for `i < R - 1`) — the backoff factor is the hard-coded 2 of the source —
and the sync executor configured with `retry_backoff_factor = b` sleeps
exactly `b ^ i` — the sync manager has no retry_delay parameter, so the
multiplier is 1.  In particular `retry_attempts = 3`, `retry_delay = 1`,
factor 2 gives delays 1s and 2s (witness). -/
theorem C5_backoff_delays :
    (∀ (α : Type) (R : Nat) (d : ℚ) (es : Nat → String)
        (acb : ACircuitBreaker) (now : ℚ),
      1 ≤ R → acb.state = .CLOSED →
      (asyncRequest (α := α) R d (fun j => .error (es j)) acb now).2.1
        = (List.range (R - 1)).map (fun i => d * 2 ^ i)) ∧
    (∀ (α : Type) (R : Nat) (b : ℚ) (es : Nat → String)
        (N : Nat) (T now : ℚ) (lf : Option ℚ),
      1 ≤ R → R ≤ N →
      (retryWithBackoff (α := α) R b (fun j => .error (es j))
          ⟨N, T, .CLOSED, 0, lf⟩ now).2.1
        = (List.range (R - 1)).map (fun i => b ^ i)) := by
  constructor
  · intro α R d es acb now hR hs
    have h := asyncLoop_all_fail (α := α) d es R 0 acb now hR
    rw [asyncRequest]
    simp only [aCheckState_closed acb now hs]
    simpa using h.2
  · intro α R b es N T now lf hR hRN
    have h := retryFrom_all_fail (α := α) b es N T R 0 0 lf now hR (by omega)
    rw [retryWithBackoff]
    rw [h.2]
    simp

/-- Witness for C5 at the spec scenario: `retry_attempts = 3`,
`retry_delay = 1`, backoff factor 2, three consecutive transport failures;
the two inter-attempt delays are 1s and 2s in both executors. -/
theorem C5_backoff_delays_witness :
    (asyncRequest (α := Nat) 3 1 (fun _ => .error "transport down")
        ⟨5, 60, .CLOSED, 0, 0⟩ 0).2.1 = [1, 2] ∧
    (retryWithBackoff (α := Nat) 3 2 (fun _ => .error "transport down")
        ⟨5, 60, .CLOSED, 0, none⟩ 0).2.1 = [1, 2] := by
  constructor
  · rw [C5_backoff_delays.1 Nat 3 1 (fun _ => "transport down")
      ⟨5, 60, .CLOSED, 0, 0⟩ 0 (by norm_num) rfl]
    simp [List.range_succ]
  · rw [C5_backoff_delays.2 Nat 3 2 (fun _ => "transport down")
      5 60 0 none (by norm_num) (by norm_num)]
    simp [List.range_succ]

/-- ProductionRAGManager.add_documents (production_rag_manager.py, lines
423-445): run the write through `_retry_with_backoff`; on success return
True, and on any exception log it and return False — the exception is not
re-raised. -/
def add_documents_model (R : Nat) (b : ℚ) (outs : Nat → Except String Unit)
    (cb : CircuitBreaker) (now : ℚ) : Bool :=
  match (retryWithBackoff R b outs cb now).1 with
  | .ok _ => true
  | .error _ => false

/-- ProductionRAGManager.delete_collection (lines 487-506): same shape as
add_documents — False on any exception, never re-raised. -/
def delete_collection_model (R : Nat) (b : ℚ) (outs : Nat → Except String Unit)
    (cb : CircuitBreaker) (now : ℚ) : Bool :=
  match (retryWithBackoff R b outs cb now).1 with
  | .ok _ => true
  | .error _ => false

/-- ProductionRAGManager.similarity_search (lines 447-467): run the search
through `_retry_with_backoff`; on any exception log it and return the empty
list — the exception is not re-raised. -/
def similarity_search_model (R : Nat) (b : ℚ)
    (outs : Nat → Except String (List Nat)) (cb : CircuitBreaker) (now : ℚ) :
    List Nat :=
  match (retryWithBackoff R b outs cb now).1 with
  | .ok docs => docs
  | .error _ => []

/-- AsyncProductionRAGManager.add_documents
(async_production_rag_manager.py, lines 424-459): run the write through the
pooled `request`; the except block logs and bare-`raise`s, so the underlying
error propagates to the caller unchanged. -/
def async_add_documents_model {α : Type} (R : Nat) (d : ℚ)
    (outs : Nat → Except String α) (acb : ACircuitBreaker) (now : ℚ) :
    Except AReqError (Option α) :=
  (asyncRequest R d outs acb now).1

/-- Claim C6 counterexample: with `retry_attempts = 3`, backoff factor 2, a
healthy breaker (threshold 5) and a transport that fails every attempt, the
sync facade does not surface the last failure: `add_documents` returns
False, `delete_collection` returns False, and `similarity_search` returns
the empty list, so the error is swallowed for writes and reads degrade to an
empty result by default. -/
theorem C6_sync_facade_swallows_counterexample :
    add_documents_model 3 2 (fun _ => .error "transport down")
        ⟨5, 60, .CLOSED, 0, none⟩ 0 = false ∧
    delete_collection_model 3 2 (fun _ => .error "transport down")
        ⟨5, 60, .CLOSED, 0, none⟩ 0 = false ∧
    similarity_search_model 3 2 (fun _ => .error "transport down")
        ⟨5, 60, .CLOSED, 0, none⟩ 0 = [] := by
  have h := retryFrom_all_fail (α := Unit) 2 (fun _ => "transport down")
    5 60 3 0 0 none 0 (by norm_num) (by norm_num)
  have h2 := retryFrom_all_fail (α := List Nat) 2 (fun _ => "transport down")
    5 60 3 0 0 none 0 (by norm_num) (by norm_num)
  refine ⟨?_, ?_, ?_⟩
  · rw [add_documents_model, retryWithBackoff, h.1]
  · rw [delete_collection_model, retryWithBackoff, h.1]
  · rw [similarity_search_model, retryWithBackoff, h2.1]

/-- Claim C6 as amended: after all retry attempts are exhausted by failures,
the executor surfaces the last underlying failure unchanged — the sync
`_retry_with_backoff` re-raises the last exception, and the async facade
operations (modelled by add_documents) re-raise it to their caller — but the
sync facade catches it: `add_documents` and `delete_collection` return False
and `similarity_search` returns the empty list, unconditionally (there is no
configuration switch to surface the error instead). -/
theorem C6_last_error_surfaced :
    (∀ (α : Type) (R : Nat) (b : ℚ) (es : Nat → String)
        (N : Nat) (T now : ℚ) (lf : Option ℚ),
      1 ≤ R → R ≤ N →
      (retryWithBackoff (α := α) R b (fun j => .error (es j))
          ⟨N, T, .CLOSED, 0, lf⟩ now).1
        = .error (.funcErr (es (R - 1)))) ∧
    (∀ (α : Type) (R : Nat) (d : ℚ) (es : Nat → String)
        (acb : ACircuitBreaker) (now : ℚ),
      1 ≤ R → acb.state = .CLOSED →
      async_add_documents_model (α := α) R d (fun j => .error (es j)) acb now
        = .error (.transport (es (R - 1)))) ∧
    (∀ (R : Nat) (b : ℚ) (es : Nat → String) (esl : Nat → String)
        (N : Nat) (T now : ℚ) (lf : Option ℚ),
      1 ≤ R → R ≤ N →
      add_documents_model R b (fun j => .error (es j))
          ⟨N, T, .CLOSED, 0, lf⟩ now = false ∧
      delete_collection_model R b (fun j => .error (es j))
          ⟨N, T, .CLOSED, 0, lf⟩ now = false ∧
      similarity_search_model R b (fun j => .error (esl j))
          ⟨N, T, .CLOSED, 0, lf⟩ now = []) := by
  refine ⟨?_, ?_, ?_⟩
  · intro α R b es N T now lf hR hRN
    have h := retryFrom_all_fail (α := α) b es N T R 0 0 lf now hR (by omega)
    rw [retryWithBackoff, h.1]
    simp
  · intro α R d es acb now hR hs
    have h := asyncLoop_all_fail (α := α) d es R 0 acb now hR
    rw [async_add_documents_model, asyncRequest]
    simp only [aCheckState_closed acb now hs]
    simp only [if_true]
    rw [h.1]
    simp [toAReq]
  · intro R b es esl N T now lf hR hRN
    have h := retryFrom_all_fail (α := Unit) b es N T R 0 0 lf now hR (by omega)
    have h2 := retryFrom_all_fail (α := List Nat) b esl N T R 0 0 lf now hR
      (by omega)
    refine ⟨?_, ?_, ?_⟩
    · rw [add_documents_model, retryWithBackoff, h.1]
    · rw [delete_collection_model, retryWithBackoff, h.1]
    · rw [similarity_search_model, retryWithBackoff, h2.1]

/-- Witness for C6 as amended at concrete inputs: `retry_attempts = 3`,
factor 2, threshold 5, transport failing on every attempt with a distinct
message per attempt; the error surfaced is the 3rd attempt's. -/
theorem C6_last_error_surfaced_witness :
    ((retryWithBackoff (α := Nat) 3 2
        (fun j => .error ("boom " ++ toString j))
        ⟨5, 60, .CLOSED, 0, none⟩ 0).1
      = .error (.funcErr ("boom " ++ toString 2))) ∧
    (async_add_documents_model (α := Nat) 3 1
        (fun j => .error ("boom " ++ toString j)) ⟨5, 60, .CLOSED, 0, 0⟩ 0
      = .error (.transport ("boom " ++ toString 2))) ∧
    (add_documents_model 3 2 (fun _ => .error "boom")
        ⟨5, 60, .CLOSED, 0, none⟩ 0 = false) :=
  ⟨C6_last_error_surfaced.1 Nat 3 2 (fun j => "boom " ++ toString j)
      5 60 0 none (by norm_num) (by norm_num),
    C6_last_error_surfaced.2.1 Nat 3 1 (fun j => "boom " ++ toString j)
      ⟨5, 60, .CLOSED, 0, 0⟩ 0 (by norm_num) rfl,
    (C6_last_error_surfaced.2.2 3 2 (fun _ => "boom") (fun _ => "boom")
      5 60 0 none (by norm_num) (by norm_num)).1⟩

/-- One entry of `ConnectionPool._connections`
(production_rag_manager.py, lines 156-193): the dict
`{client, host, port, in_use, created, last_used}`, with the chromadb client
handle identified by a numeric id (fresh per created connection, as each
`chromadb.HttpClient(...)` call yields a distinct object). -/
structure PoolConn where
  client : Nat
  host : String
  port : Nat
  in_use : Bool
  created : ℚ
  last_used : ℚ
deriving DecidableEq

/-- State of a `ConnectionPool` (lines 137-210): configuration plus the
connection list guarded by its lock; `nextId` supplies fresh handle ids. -/
structure ConnectionPool where
  max_connections : Nat
  max_idle_time : ℚ
  connections : List PoolConn
  nextId : Nat
deriving DecidableEq

/-- The raised "Connection pool exhausted" exception (line 184). -/
inductive PoolError where
  | poolExhausted
deriving DecidableEq

/-- The scan loop of ConnectionPool.get_connection (lines 159-167): find the
first entry matching (host, port), not in use and not idle-expired; mark it
in use, refresh its last-used time, and hand out its client. -/
def acquireAvail (host : String) (port : Nat) (now idle : ℚ) :
    List PoolConn → Option (Nat × List PoolConn)
  | [] => none
  | c :: rest =>
    if c.host = host ∧ c.port = port ∧ c.in_use = false ∧
        now - c.last_used < idle then
      some (c.client, { c with in_use := true, last_used := now } :: rest)
    else
      match acquireAvail host port now idle rest with
      | some (cl, rest2) => some (cl, c :: rest2)
      | none => none

/-- ConnectionPool.get_connection (lines 156-184): reuse a matching free,
non-idle-expired entry; otherwise create and register a new in-use entry if
the pool is below `max_connections`; otherwise raise "Connection pool
exhausted". -/
def get_connection (p : ConnectionPool) (host : String) (port : Nat)
    (now : ℚ) : Except PoolError (Nat × ConnectionPool) :=
  match acquireAvail host port now p.max_idle_time p.connections with
  | some (cl, conns2) => .ok (cl, { p with connections := conns2 })
  | none =>
    if p.connections.length < p.max_connections then
      .ok (p.nextId, { p with
        connections :=
          p.connections ++ [⟨p.nextId, host, port, true, now, now⟩],
        nextId := p.nextId + 1 })
    else
      .error .poolExhausted

/-- The scan loop of ConnectionPool.release_connection (lines 186-193):
clear the in-use flag of the first entry holding this client and refresh its
last-used time; a `break` stops after the first match. -/
def releaseFirst (client : Nat) (now : ℚ) : List PoolConn → List PoolConn
  | [] => []
  | c :: rest =>
    if c.client = client then
      { c with in_use := false, last_used := now } :: rest
    else
      c :: releaseFirst client now rest

/-- ConnectionPool.release_connection (lines 186-193). -/
def release_connection (p : ConnectionPool) (client : Nat) (now : ℚ) :
    ConnectionPool :=
  { p with connections := releaseFirst client now p.connections }

/-- One pool operation issued by a caller. -/
inductive PoolOp where
  | acquire (host : String) (port : Nat) (now : ℚ)
  | release (client : Nat) (now : ℚ)

/-- Apply one operation to the pool; a failed acquire (PoolExhausted raised)
leaves the pool unchanged. -/
def applyOp (p : ConnectionPool) : PoolOp → ConnectionPool
  | .acquire h prt t =>
    match get_connection p h prt t with
    | .ok r => r.2
    | .error _ => p
  | .release cl t => release_connection p cl t

/-- Run a sequence of acquire/release operations. -/
def runOps (p : ConnectionPool) (ops : List PoolOp) : ConnectionPool :=
  ops.foldl applyOp p

/-- A freshly constructed pool (lines 140-154): empty connection list. -/
def initPool (maxc : Nat) (idle : ℚ) : ConnectionPool := ⟨maxc, idle, [], 0⟩

/-- Number of entries currently marked in use. -/
def inUseCount (p : ConnectionPool) : Nat :=
  (p.connections.filter (fun c => c.in_use)).length

lemma acquireAvail_length (host : String) (prt : Nat) (now idle : ℚ) :
    ∀ (l : List PoolConn) (cl : Nat) (l2 : List PoolConn),
      acquireAvail host prt now idle l = some (cl, l2) →
      l2.length = l.length := by
  intro l
  induction l with
  | nil => intro cl l2 hx; simp [acquireAvail] at hx
  | cons c rest ih =>
    intro cl l2 hx
    rw [acquireAvail] at hx
    split at hx
    · simp only [Option.some.injEq, Prod.mk.injEq] at hx
      rw [← hx.2]
      simp
    · cases hrec : acquireAvail host prt now idle rest with
      | some pr =>
        rw [hrec] at hx
        simp only [Option.some.injEq, Prod.mk.injEq] at hx
        rw [← hx.2]
        simp [ih pr.1 pr.2 (by rw [hrec])]
      | none => rw [hrec] at hx; cases hx
    
lemma releaseFirst_length (cl : Nat) (now : ℚ) :
    ∀ l : List PoolConn, (releaseFirst cl now l).length = l.length := by
  intro l
  induction l with
  | nil => rfl
  | cons c rest ih => rw [releaseFirst]; split <;> simp [ih]

lemma applyOp_inv (p : ConnectionPool) (op : PoolOp)
    (hp : p.connections.length ≤ p.max_connections) :
    (applyOp p op).connections.length ≤ (applyOp p op).max_connections ∧
    (applyOp p op).max_connections = p.max_connections := by
  cases op with
  | acquire h prt t =>
    cases hav : acquireAvail h prt t p.max_idle_time p.connections with
    | some pr =>
      rcases pr with ⟨cl, l2⟩
      have hlen := acquireAvail_length h prt t p.max_idle_time
        p.connections cl l2 hav
      have hstep : applyOp p (.acquire h prt t) = { p with connections := l2 } := by
        simp [applyOp, get_connection, hav]
      rw [hstep]
      exact ⟨by simpa [hlen] using hp, rfl⟩
    | none =>
      by_cases hcap : p.connections.length < p.max_connections
      · have hstep : applyOp p (.acquire h prt t)
            = { p with
                connections :=
                  p.connections ++ [⟨p.nextId, h, prt, true, t, t⟩],
                nextId := p.nextId + 1 } := by
          simp [applyOp, get_connection, hav, hcap]
        rw [hstep]
        refine ⟨?_, rfl⟩
        simp only [List.length_append, List.length_singleton]
        omega
      · have hstep : applyOp p (.acquire h prt t) = p := by
          simp [applyOp, get_connection, hav, hcap]
        rw [hstep]
        exact ⟨hp, rfl⟩
  | release cl t =>
    refine ⟨?_, ?_⟩ <;> simp [applyOp, release_connection, releaseFirst_length]
    exact hp

lemma runOps_inv (ops : List PoolOp) :
    ∀ p : ConnectionPool, p.connections.length ≤ p.max_connections →
      (runOps p ops).connections.length ≤ (runOps p ops).max_connections ∧
      (runOps p ops).max_connections = p.max_connections := by
  induction ops with
  | nil => intro p hp; exact ⟨hp, rfl⟩
  | cons op ops ih =>
    intro p hp
    have h1 := applyOp_inv p op hp
    have h2 := ih (applyOp p op) h1.1
    simp only [runOps, List.foldl_cons] at h2 ⊢
    exact ⟨h2.1, h2.2.trans h1.2⟩

/-- Claim C3: for every sequence of acquire/release operations on a fresh
pool with limit `max_connections`, the number of entries simultaneously
marked in use never exceeds the limit (first conjunct, instantiable at every
prefix of an operation sequence); and whenever the pool is at capacity and
the scan finds no matching free, non-idle-expired entry, `get_connection`
fails with the PoolExhausted error instead of creating a new connection
(second conjunct). -/
theorem C3_pool_bounded_and_exhausted :
    (∀ (maxc : Nat) (idle : ℚ) (ops : List PoolOp),
      inUseCount (runOps (initPool maxc idle) ops) ≤ maxc) ∧
    (∀ (p : ConnectionPool) (host : String) (prt : Nat) (now : ℚ),
      acquireAvail host prt now p.max_idle_time p.connections = none →
      ¬ p.connections.length < p.max_connections →
      get_connection p host prt now = .error .poolExhausted) := by
  constructor
  · intro maxc idle ops
    have h := runOps_inv ops (initPool maxc idle) (by simp [initPool])
    calc inUseCount (runOps (initPool maxc idle) ops)
        ≤ (runOps (initPool maxc idle) ops).connections.length :=
          List.length_filter_le _ _
      _ ≤ (runOps (initPool maxc idle) ops).max_connections := h.1
      _ = maxc := h.2
  · intro p host prt now hav hfull
    rw [get_connection, hav]
    simp [hfull]

/-- Witness for C3 at concrete inputs: a pool with limit 1; the first
acquire creates the one connection, and a second acquire while it is in use
hits the PoolExhausted error. -/
theorem C3_pool_bounded_and_exhausted_witness :
    (inUseCount (runOps (initPool 1 300)
        [.acquire "h" 1 0, .acquire "h" 1 5]) ≤ 1) ∧
    (acquireAvail "h" 1 5 (300 : ℚ) [⟨0, "h", 1, true, 0, 0⟩] = none ∧
      ¬ ([(⟨0, "h", 1, true, 0, 0⟩ : PoolConn)]).length < 1) ∧
    get_connection ⟨1, 300, [⟨0, "h", 1, true, 0, 0⟩], 1⟩ "h" 1 5
      = .error .poolExhausted := by
  have hav : acquireAvail "h" 1 5 (300 : ℚ) [⟨0, "h", 1, true, 0, 0⟩] = none := by
    simp [acquireAvail]
  refine ⟨C3_pool_bounded_and_exhausted.1 1 300 _, ⟨hav, by decide⟩, ?_⟩
  exact C3_pool_bounded_and_exhausted.2 ⟨1, 300, [⟨0, "h", 1, true, 0, 0⟩], 1⟩
    "h" 1 5 hav (by decide)

/-- The `type` field of one entry of the operations list passed to
AsyncProductionRAGManager.batch_operations
(async_production_rag_manager.py, lines 555-585). -/
inductive OpKind where
  | search
  | add
  | get_info
  | other (s : String)
deriving DecidableEq

/-- Whether batch_operations dispatches this operation type (lines 560-569);
anything else logs a warning and `continue`s without scheduling a task. -/
def isRecognized : OpKind → Bool
  | .search => true
  | .add => true
  | .get_info => true
  | .other _ => false

/-- One entry of the list batch_operations returns (lines 577-585): either
the operation's result or the dict `{error: str(result)}` built from the
exception `asyncio.gather` captured at that position. -/
inductive BatchEntry where
  | success (v : Nat)
  | errorEntry (msg : String)
deriving DecidableEq

/-- The task-building loop of batch_operations (lines 557-571): operations
with a recognized type contribute the coroutine of the dispatched call
(modelled by the outcome it will produce), all others are skipped. -/
def buildTasks (ops : List (OpKind × Except String Nat)) :
    List (Except String Nat) :=
  ops.filterMap (fun op => if isRecognized op.1 then some op.2 else none)

/-- AsyncProductionRAGManager.batch_operations (lines 555-585):
`asyncio.gather(..., return_exceptions := true)` preserves task order, and
the result loop maps an exception at index i to an error entry and anything
else to a success entry. -/
def batch_operations (ops : List (OpKind × Except String Nat)) :
    List BatchEntry :=
  (buildTasks ops).map (fun r =>
    match r with
    | .ok v => .success v
    | .error e => .errorEntry e)

/-- Claim C8 counterexample: an operation with an unrecognized type is
skipped rather than reported at its index, so for the 3-operation input
below the result has 2 entries, not one entry per input operation — and the
result of the third operation shifts to index 1. -/
theorem C8_batch_positional_counterexample :
    (batch_operations
        [(.search, .ok 1), (.other "bulk", .ok 2), (.search, .ok 3)]).length
      = 2 ∧
    ([((.search : OpKind), (.ok 1 : Except String Nat)),
      (.other "bulk", .ok 2), (.search, .ok 3)]).length = 3 := by
  constructor <;> rfl

/-- Claim C8 as amended: for every list of operations whose types are all
recognized (search / add / get_info), batch_operations returns exactly one
entry per input operation in the same position — an operation that raises
yields an error entry at its own index and the sibling results are unchanged
(first conjunct, the positional map); operations of unrecognized type are
skipped, shortening the result.  The spec scenario — 3 recognized operations
with operation 2 raising — yields the expected positional result (second
conjunct). -/
theorem C8_batch_positional :
    (∀ ops : List (OpKind × Except String Nat),
      (∀ op ∈ ops, isRecognized op.1 = true) →
      batch_operations ops = ops.map (fun op =>
        match op.2 with
        | .ok v => .success v
        | .error e => .errorEntry e)) ∧
    batch_operations [(.search, .ok 10), (.add, .error "boom"),
        (.get_info, .ok 30)]
      = [.success 10, .errorEntry "boom", .success 30] := by
  constructor
  · intro ops h
    induction ops with
    | nil => rfl
    | cons op rest ih =>
      have hop : isRecognized op.1 = true := h op (List.mem_cons_self op rest)
      have hrest := ih (fun x hx => h x (List.mem_cons_of_mem op hx))
      simp only [batch_operations, buildTasks, List.filterMap_cons, hop,
        if_true, List.map_cons] at hrest ⊢
      rw [hrest]
  · rfl

/-- Witness for C8 as amended at the spec scenario input, whose three
operation types are all recognized. -/
theorem C8_batch_positional_witness :
    (∀ op ∈ [((.search : OpKind), (.ok 10 : Except String Nat)),
        (.add, .error "boom"), (.get_info, .ok 30)],
      isRecognized op.1 = true) ∧
    batch_operations [(.search, .ok 10), (.add, .error "boom"),
        (.get_info, .ok 30)]
      = ([(.search, .ok 10), (.add, .error "boom"),
          ((.get_info : OpKind), (.ok 30 : Except String Nat))]).map
          (fun op =>
            match op.2 with
            | .ok v => .success v
            | .error e => .errorEntry e) :=
  ⟨by decide,
    C8_batch_positional.1
      [(.search, .ok 10), (.add, .error "boom"), (.get_info, .ok 30)]
      (by decide)⟩

